import Mathlib

set_option maxHeartbeats 1000000

/-!
Verification development for the minsky maintenance utilities.

The repository holds four independent Python scripts; each is shallowly embedded
below as pure Lean functions over `List Char` (for the character-exact text
rewriting) or `String` (for the rule-file generator).  Machine integers do not
occur: Python integers are unbounded and are modelled by `Int`/`Nat`.

Sections:
  1. definitions for `process/fix_tasks_md.py`  (task-index path repairer)
  2. definitions for the Calculator test fixture
  3. definitions for `create_rule_files.py`     (rule-file generator)
  4. definitions for `count_real_tools.py`      (tool-manifest comparator)
  5. helper lemmas
  6. claim theorems and witnesses
-/

namespace Minsky

/-! ### 1. Task-index path repairer (`process/fix_tasks_md.py`)

The script reads `tasks.md`, scans `tasks/` with `glob.glob('tasks/[0-9]*.md')`,
builds a dict from task number to glob path, and rewrites each line of
`tasks.md` with `re.search` / `re.sub` on the pattern
`\[#(\d+)\]\(process/tasks/[^)]+\.md\)`.  Text is modelled as `List Char`;
`\d` is modelled as an ASCII digit (the task numbers in play are ASCII). -/

/-- Python string `<` comparison: lexicographic on code points. -/
def listLe : List Char → List Char → Bool
  | [], _ => true
  | _ :: _, [] => false
  | a :: as, b :: bs =>
    if a.val < b.val then true
    else if b.val < a.val then false
    else listLe as bs

/-- Insertion step of the sort used to model Python `sorted`. -/
def insertSorted (x : List Char) : List (List Char) → List (List Char)
  | [] => [x]
  | y :: ys => if listLe x y then x :: y :: ys else y :: insertSorted x ys

/-- Python `sorted` on a list of strings (insertion sort; total order on code points). -/
def sortedStrings : List (List Char) → List (List Char)
  | [] => []
  | x :: xs => insertSorted x (sortedStrings xs)

/-- `leadsWith pat s` is true when `pat` is a prefix of `s` (literal text match). -/
def leadsWith : List Char → List Char → Bool
  | [], _ => true
  | _ :: _, [] => false
  | a :: as, b :: bs => a == b && leadsWith as bs

/-- `trailsWith pat s` is true when `pat` is a suffix of `s`. -/
def trailsWith (pat s : List Char) : Bool :=
  leadsWith pat.reverse s.reverse

/-- The glob pattern `[0-9]*.md` applied to a bare file name: one ASCII digit,
then anything, then the literal `.md`. -/
def globMatch (f : List Char) : Bool :=
  match f with
  | [] => false
  | c :: rest => c.isDigit && trailsWith ".md".data rest

/-- `sorted(glob.glob('tasks/[0-9]*.md'))`, expressed over the directory listing
(bare file names) of `tasks/`. -/
def globTasks (listing : List (List Char)) : List (List Char) :=
  sortedStrings ((listing.filter globMatch).map (fun f => "tasks/".data ++ f))

/-- `os.path.basename`: the part of a path after the last `/`. -/
def basename (p : List Char) : List Char :=
  (p.reverse.takeWhile (fun c => c != '/')).reverse

/-- `re.match(r'^(\d+)-', filename)`: the leading maximal digit run, provided it
is nonempty and immediately followed by `-`. -/
def taskNumOf (f : List Char) : Option (List Char) :=
  let ds := f.takeWhile Char.isDigit
  if ds = [] then none
  else
    match f.dropWhile Char.isDigit with
    | '-' :: _ => some ds
    | _ => none

/-- The `task_files` dict: task number ↦ the glob path (`tasks/<name>`).  The
association list is reversed so that the first hit of `lookupA` is the last
assignment made while iterating the sorted glob results, matching the
overwrite semantics of a Python dict. -/
def task_files (listing : List (List Char)) : List (List Char × List Char) :=
  ((globTasks listing).filterMap
      (fun fp => (taskNumOf (basename fp)).map (fun n => (n, fp)))).reverse

/-- Association-list lookup (first hit). -/
def lookupA (k : List Char) : List (List Char × List Char) → Option (List Char)
  | [] => none
  | (k2, v) :: rest => if k = k2 then some v else lookupA k rest

/-- Match the regex fragment `[^)]+\.md\)` at the head of `cs`; on success,
return the text after the match.  Since `.md` contains no `)`, any match of
this fragment necessarily ends at the first `)` of `cs`, with the three
characters before that `)` being `.md` and at least one character before
those; so the match is unique, and greediness plays no role. -/
def matchPath (cs : List Char) : Option (List Char) :=
  let pre := cs.takeWhile (fun c => c != ')')
  match cs.dropWhile (fun c => c != ')') with
  | _ :: rest =>
    if 4 ≤ pre.length ∧ pre.drop (pre.length - 3) = ['.', 'm', 'd'] then some rest
    else none
  | [] => none

/-- Match `\[#<num>\]\(process/tasks/[^)]+\.md\)` (with `<num>` literal digits,
as in the `re.sub` call) at the head of `cs`; on success return the text after
the match. -/
def matchNumAt (num : List Char) (cs : List Char) : Option (List Char) :=
  match cs with
  | c1 :: c2 :: rest =>
    if c1 = '[' ∧ c2 = '#' ∧ leadsWith num rest = true then
      match rest.drop num.length with
      | d1 :: d2 :: rest2 =>
        if d1 = ']' ∧ d2 = '(' ∧ leadsWith "process/tasks/".data rest2 = true then
          matchPath (rest2.drop 14)
        else none
      | _ => none
    else none
  | _ => none

/-- Match `\[#(\d+)\]\(process/tasks/[^)]+\.md\)` at the head of `cs`, as in the
`re.search` call, and return the captured digit group.  A maximal digit run
followed by `]` is equivalent to the backtracking behaviour of `(\d+)\]`. -/
def captureAt (cs : List Char) : Option (List Char) :=
  match cs with
  | c1 :: c2 :: rest =>
    if c1 = '[' ∧ c2 = '#' then
      let ds := rest.takeWhile Char.isDigit
      if ds = [] then none
      else
        match rest.dropWhile Char.isDigit with
        | d1 :: d2 :: rest2 =>
          if d1 = ']' ∧ d2 = '(' ∧ leadsWith "process/tasks/".data rest2 = true
              ∧ (matchPath (rest2.drop 14)).isSome = true then
            some ds
          else none
        | _ => none
    else none
  | _ => none

/-- `re.search`: the captured group of the leftmost match, if any. -/
def searchTaskRef : List Char → Option (List Char)
  | [] => none
  | c :: cs =>
    match captureAt (c :: cs) with
    | some ds => some ds
    | none => searchTaskRef cs

/-- Scanning core of `re.sub`: while `skip > 0` the character belongs to an
already-replaced match and is dropped; at `skip = 0` a match attempt is made at
the current position, and on success the replacement is emitted and the rest of
the matched region is skipped (re.sub continues after each match). -/
def subAllAux (num repl : List Char) : List Char → Nat → List Char
  | [], _ => []
  | _ :: cs, skip + 1 => subAllAux num repl cs skip
  | c :: cs, 0 =>
    match matchNumAt num (c :: cs) with
    | some rest => repl ++ subAllAux num repl cs (cs.length - rest.length)
    | none => c :: subAllAux num repl cs 0

/-- `re.sub(r'\[#<num>\]\(process/tasks/[^)]+\.md\)', repl, cs)`. -/
def subAll (num repl cs : List Char) : List Char :=
  subAllAux num repl cs 0

/-- One iteration of the `for line in lines` loop: search for a reference,
look the captured number up in the dict, and if present substitute every
occurrence of that number's reference with the corrected path. -/
def fixLineCore (tf : List (List Char × List Char)) (line : List Char) : List Char :=
  match searchTaskRef line with
  | none => line
  | some num =>
    match lookupA num tf with
    | none => line
    | some fp =>
      subAll num ("[#".data ++ num ++ "](process/".data ++ fp ++ ")".data) line

/-- Python `content.split('\n')`. -/
def splitNl : List Char → List (List Char)
  | [] => [[]]
  | c :: cs =>
    if c = '\n' then [] :: splitNl cs
    else
      match splitNl cs with
      | [] => [[c]]
      | l :: ls => (c :: l) :: ls

/-- Python `'\n'.join(lines)`. -/
def joinNl : List (List Char) → List Char
  | [] => []
  | l :: ls =>
    match ls with
    | [] => l
    | _ :: _ => l ++ '\n' :: joinNl ls

/-- The whole script: from the directory listing of `tasks/` and the current
content of `tasks.md` to the content written back. -/
def fix_tasks_md (listing : List (List Char)) (content : List Char) : List Char :=
  joinNl ((splitNl content).map (fixLineCore (task_files listing)))

/-- Decidable per-line condition used by claim C10: the line either carries no
reference, or its referenced number is not a key of the dict. -/
def lineUnmapped (tf : List (List Char × List Char)) (l : List Char) : Bool :=
  match searchTaskRef l with
  | none => true
  | some num => (lookupA num tf).isNone

/-! ### C2's reading of the mapping, written from the claim's words

Claim C2 describes the dict as mapping each task number to "that task file's
path relative to the tasks directory", i.e. the bare file name; the rewrite
would then produce `process/<bare-name>`.  These definitions follow that
wording, for comparison against `task_files` / `fix_tasks_md` above. -/

/-- The mapping as claim C2 words it: task number ↦ path relative to `tasks/`
(the bare file name). -/
def task_files_claim (listing : List (List Char)) : List (List Char × List Char) :=
  ((globTasks listing).filterMap
      (fun fp => (taskNumOf (basename fp)).map (fun n => (n, basename fp)))).reverse

/-- The repairer as claim C2 describes it (identical except for the mapping). -/
def fix_tasks_md_claim (listing : List (List Char)) (content : List Char) : List Char :=
  joinNl ((splitNl content).map (fixLineCore (task_files_claim listing)))

/-! ### 2. Calculator fixture
(`tests/integration/fixtures/session-edit-file/python/simple-module.py`)

Python integers are unbounded, hence `Int`. -/

/-- `Calculator.add`: `return a + b`. -/
def Calculator.add (a b : Int) : Int := a + b

/-- `Calculator.subtract`: `return a - b`. -/
def Calculator.subtract (a b : Int) : Int := a - b

/-! ### 3. Rule-file generator (`create_rule_files.py`)

The script ensures `.cursor/rules` exists and performs six `create_rule_file`
calls with hard-coded arguments; each call writes frontmatter plus content to
its path, truncating any existing file, and prints a confirmation line.  The
writes are modelled as the list of (path, written text) pairs in program
order, applied to a file-system state `String → Option String`; directory
creation and console output do not affect the written file contents and are
not modelled. -/

/-- The f-string `frontmatter` of `create_rule_file`. -/
def frontmatter (name description : String) : String :=
  "---\nname: " ++ name ++ "\ndescription: " ++ description
    ++ "\nglobs:\n  - \"**/*\"\nalwaysApply: false\n---\n"

/-- `create_rule_file(file_path, name, description, content)` as the write it
performs: the target path paired with the full text written there. -/
def create_rule_file (file_path name description content : String) :
    String × String :=
  (file_path, frontmatter name description ++ content)

/-- The fixed output directory `rules_dir`. -/
def rules_dir : String := ".cursor/rules"

/-- `os.path.join(rules_dir, fname)` for the plain relative names in play. -/
def joinPath (dir fname : String) : String := dir ++ "/" ++ fname

/-- Rule 1 title. -/
def name1 : String := "Minsky Workflow Orchestrator"

/-- Rule 1 description. -/
def desc1 : String := "Overview of the Minsky workflow system and entry point to focused workflow rules"

/-- Rule 1 markdown body (verbatim from the source). -/
def body1 : String :=
  "# Minsky Workflow System\n"
    ++ "\n"
    ++ "This rule provides an overview of the Minsky workflow system and serves as an entry point to the more detailed workflow rules. The Minsky workflow has been divided into focused rules to make it easier to understand and follow.\n"
    ++ "\n"
    ++ "## Core Workflow Rules\n"
    ++ "\n"
    ++ "The following rules form the complete Minsky workflow system:\n"
    ++ "\n"
    ++ "1. [**minsky-cli-usage**](mdc:.cursor/rules/minsky-cli-usage.mdc) - Guidelines for using the Minsky CLI for all task and session operations\n"
    ++ "2. [**minsky-session-management**](mdc:.cursor/rules/minsky-session-management.mdc) - Procedures for creating and managing sessions\n"
    ++ "3. [**task-implementation-workflow**](mdc:.cursor/rules/task-implementation-workflow.mdc) - Step-by-step process for implementing tasks\n"
    ++ "4. [**task-status-protocol**](mdc:.cursor/rules/task-status-protocol.mdc) - Procedures for checking and updating task status\n"
    ++ "5. [**pr-preparation-workflow**](mdc:.cursor/rules/pr-preparation-workflow.mdc) - Guidelines for preparing and submitting PRs\n"
    ++ "\n"
    ++ "## Fundamental Principle: CLI-Based Workflow\n"
    ++ "\n"
    ++ "**CRITICAL REQUIREMENT**: ALL task and session management MUST be done through the Minsky CLI, not through direct file system operations. This includes:\n"
    ++ "\n"
    ++ "- Task listing, status checking, and status updates\n"
    ++ "- Session creation, navigation, and management\n"
    ++ "- Task implementation and verification\n"
    ++ "- PR preparation and submission\n"
    ++ "\n"
    ++ "## When to Apply These Rules\n"
    ++ "\n"
    ++ "These workflow rules should be applied:\n"
    ++ "\n"
    ++ "- When starting work on a new task\n"
    ++ "- When checking or updating task status\n"
    ++ "- When creating or managing sessions\n"
    ++ "- When implementing task requirements\n"
    ++ "- When preparing pull requests\n"
    ++ "\n"
    ++ "## Supporting Rules\n"
    ++ "\n"
    ++ "The Minsky workflow is supported by these additional rules:\n"
    ++ "\n"
    ++ "- [**session-first-workflow**](mdc:.cursor/rules/session-first-workflow.mdc) - Ensures all implementation work happens in dedicated sessions\n"
    ++ "- [**creating-tasks**](mdc:.cursor/rules/creating-tasks.mdc) - Guidelines for creating well-structured task specifications\n"
    ++ "- [**pr-description-guidelines**](mdc:.cursor/rules/pr-description-guidelines.mdc) - Format and content requirements for PR descriptions\n"
    ++ "- [**rules-management**](mdc:.cursor/rules/rules-management.mdc) - Guidelines for managing Minsky rules\n"

/-- Rule 2 title. -/
def name2 : String := "Minsky CLI Usage Protocol"

/-- Rule 2 description. -/
def desc2 : String := "REQUIRED protocol for using the Minsky CLI for all task and session operations"

/-- Rule 2 markdown body (verbatim from the source). -/
def body2 : String :=
  "# Minsky CLI Usage Protocol\n"
    ++ "\n"
    ++ "⛔️ **CRITICAL: ALL TASK AND SESSION OPERATIONS MUST USE THE MINSKY CLI**\n"
    ++ "\n"
    ++ "## Core Principles\n"
    ++ "\n"
    ++ "1. **Always Use Minsky CLI for Task/Session Data**\n"
    ++ "   - NEVER use file listings or static documentation for task/session data\n"
    ++ "   - NEVER directly manipulate Minsky\x27s state files or databases\n"
    ++ "   - NEVER delete or modify files in `~/.local/state/minsky/`\n"
    ++ "   - NEVER read or write to `session-db.json` directly - this is STRICTLY FORBIDDEN\n"
    ++ "   - ALWAYS use appropriate minsky commands (see Command Reference section below)\n"
    ++ "\n"
    ++ "2. **Use Official Global Installation**\n"
    ++ "   - Use the globally installed `minsky` CLI (available on your PATH, typically via `bun link`)\n"
    ++ "   - **Do NOT use `bun run ...` for task/session operations**\n"
    ++ "   - Only use `bun run ...` or direct script execution when developing or testing the Minsky CLI itself\n"
    ++ "\n"
    ++ "3. **Data Integrity is Critical**\n"
    ++ "   - Minsky maintains critical state in `~/.local/state/minsky/`\n"
    ++ "   - Direct manipulation of these files will corrupt the system\n"
    ++ "   - NEVER attempt to \"fix\" issues by deleting state files\n"
    ++ "   - Deleting state files is STRICTLY FORBIDDEN as it:\n"
    ++ "     - Corrupts Minsky\x27s understanding of tasks and sessions\n"
    ++ "     - Makes session management impossible\n"
    ++ "     - May lead to lost work or inconsistent state\n"
    ++ "     - Violates the core principle of CLI-based management\n"

/-- Rule 3 title. -/
def name3 : String := "Minsky Session Management Protocol"

/-- Rule 3 description. -/
def desc3 : String := "REQUIRED protocol for starting, re-entering, and managing Minsky sessions"

/-- Rule 3 markdown body (verbatim from the source). -/
def body3 : String :=
  "# Minsky Session Management Protocol\n"
    ++ "\n"
    ++ "**NO IMPLEMENTATION WORK CAN BEGIN WITHOUT AN ACTIVE SESSION**\n"
    ++ "\n"
    ++ "This rule defines the procedures for creating, navigating, and managing Minsky sessions, which provide isolated workspaces for task implementation.\n"
    ++ "\n"
    ++ "## What is a Minsky Session?\n"
    ++ "\n"
    ++ "A Minsky session is an isolated workspace for implementing a specific task. It ensures:\n"
    ++ "\n"
    ++ "1. **Isolation**: Changes are isolated from the main workspace until they\x27re ready for review\n"
    ++ "2. **Traceability**: Each session is associated with a specific task\n"
    ++ "3. **Reproducibility**: Sessions can be recreated or updated as needed\n"

/-- Rule 4 title. -/
def name4 : String := "Task Implementation Workflow"

/-- Rule 4 description. -/
def desc4 : String := "REQUIRED workflow for implementing tasks from start to completion"

/-- Rule 4 markdown body (verbatim from the source). -/
def body4 : String :=
  "# Task Implementation Workflow\n"
    ++ "\n"
    ++ "This rule provides a detailed, step-by-step process for implementing tasks in the Minsky workflow.\n"
    ++ "\n"
    ++ "## Task Implementation Lifecycle\n"
    ++ "\n"
    ++ "### 1. Task Selection\n"
    ++ "\n"
    ++ "1. **List available tasks**:\n"
    ++ "   ```bash\n"
    ++ "   minsky tasks list --json\n"
    ++ "   ```\n"
    ++ "\n"
    ++ "2. **View task details**:\n"
    ++ "   ```bash\n"
    ++ "   minsky tasks get <task-id>\n"
    ++ "   ```\n"
    ++ "\n"
    ++ "3. **Check the current status**:\n"
    ++ "   ```bash\n"
    ++ "   minsky tasks status get <task-id>\n"
    ++ "   ```\n"

/-- Rule 5 title. -/
def name5 : String := "Task Status Protocol"

/-- Rule 5 description. -/
def desc5 : String := "REQUIRED protocol for checking, updating, and verifying task status"

/-- Rule 5 markdown body (verbatim from the source). -/
def body5 : String :=
  "# Task Status Protocol\n"
    ++ "\n"
    ++ "This rule defines the standard protocol for checking, updating, and verifying task status within the Minsky system.\n"
    ++ "\n"
    ++ "## Task Status Lifecycle\n"
    ++ "\n"
    ++ "Tasks in the Minsky system progress through the following statuses:\n"
    ++ "\n"
    ++ "- `TODO`: Not started, available to work on\n"
    ++ "- `IN-PROGRESS`: Work has begun but is not complete\n"
    ++ "- `IN-REVIEW`: Work is complete and awaiting review\n"
    ++ "- `DONE`: Work is complete, reviewed, and merged\n"

/-- Rule 6 title. -/
def name6 : String := "PR Preparation Workflow"

/-- Rule 6 description. -/
def desc6 : String := "REQUIRED workflow for preparing and submitting pull requests"

/-- Rule 6 markdown body (verbatim from the source). -/
def body6 : String :=
  "# PR Preparation Workflow\n"
    ++ "\n"
    ++ "This rule provides guidelines for preparing and submitting pull requests (PRs) in the Minsky workflow.\n"
    ++ "\n"
    ++ "## PR Creation Process\n"
    ++ "\n"
    ++ "### 1. Verify Implementation Completeness\n"
    ++ "\n"
    ++ "Before creating a PR, ensure:\n"
    ++ "\n"
    ++ "1. **All requirements are implemented**: Check the task specification to confirm all requirements are met\n"
    ++ "2. **All tests pass**: Run the test suite to ensure all tests pass\n"
    ++ "3. **Code quality is acceptable**: Check for any linting issues or code smells\n"
    ++ "4. **Documentation is updated**: Ensure task documentation and changelog are updated\n"

/-- The six writes, in program order. -/
def rule_writes : List (String × String) :=
  [ create_rule_file (joinPath rules_dir "minsky-workflow-orchestrator.mdc") name1 desc1 body1,
    create_rule_file (joinPath rules_dir "minsky-cli-usage.mdc") name2 desc2 body2,
    create_rule_file (joinPath rules_dir "minsky-session-management.mdc") name3 desc3 body3,
    create_rule_file (joinPath rules_dir "task-implementation-workflow.mdc") name4 desc4 body4,
    create_rule_file (joinPath rules_dir "task-status-protocol.mdc") name5 desc5 body5,
    create_rule_file (joinPath rules_dir "pr-preparation-workflow.mdc") name6 desc6 body6 ]

/-- Overwrite semantics of `open(path, 'w')` followed by a full `write`. -/
def applyWrite (fs : String → Option String) (w : String × String) :
    String → Option String :=
  fun q => if q = w.1 then some w.2 else fs q

/-- One run of the generator against file-system state `fs`. -/
def runGenerator (fs : String → Option String) : String → Option String :=
  rule_writes.foldl applyWrite fs

/-! ### 4. Tool-manifest comparator (`count_real_tools.py`)

The script reads a fixed absolute document and a local `actual_output.txt`,
extracts an embedded JSON object from each with two different strategies, and
reports the tool count and first ten keys of each.  The file system is
modelled by passing each file's content as `Option (List Char)` (`none` for an
unreadable or missing file); console output is modelled as a list of events;
an uncaught exception terminating the process is modelled by the `crashed`
flag.  `json.loads` is modelled by an executable recursive-descent parser of
the JSON grammar (numbers kept as lexemes, `\uXXXX` decoded without
surrogate-pair combination); the fuel argument exceeds the input length and
each recursive call consumes at least one character first, so fuel never runs
out. -/

/-- The opening-brace character, kept out of string literals. -/
def lbrace : Char := Char.ofNat 123

/-- The closing-brace character, kept out of string literals. -/
def rbrace : Char := Char.ofNat 125

/-- Leftmost index at which `needle` occurs in `hay`, if any. -/
def findSub (needle : List Char) : List Char → Option Nat
  | [] => if needle = [] then some 0 else none
  | c :: rest =>
    if leadsWith needle (c :: rest) = true then some 0
    else (findSub needle rest).map (fun i => i + 1)

/-- Python `str.find(needle, start)`: `-1` when absent; a negative `start`
counts from the end of the string, clamped at 0. -/
def pyFind (hay needle : List Char) (start : Int) : Int :=
  let s : Nat :=
    if start < 0 then (max 0 ((hay.length : Int) + start)).toNat
    else min start.toNat hay.length
  match findSub needle (hay.drop s) with
  | some i => ((s + i : Nat) : Int)
  | none => -1

/-- Normalise a Python slice index against a length. -/
def normIdx (len : Nat) (i : Int) : Nat :=
  if i < 0 then (max 0 ((len : Int) + i)).toNat else min i.toNat len

/-- Python slice `l[a:b]`, with possibly negative bounds. -/
def pySlice (l : List Char) (a b : Int) : List Char :=
  (l.take (normIdx l.length b)).drop (normIdx l.length a)

/-- JSON values as produced by `json.loads`; numbers keep their source lexeme
(the script never uses the numeric value of an entry, only counts and keys). -/
inductive Json where
  | null : Json
  | bool : Bool → Json
  | num : List Char → Json
  | str : List Char → Json
  | arr : List Json → Json
  | obj : List (List Char × Json) → Json

/-- Python dict insertion while parsing an object: an existing key keeps its
position and takes the new value, a fresh key is appended. -/
def insertKV (kvs : List (List Char × Json)) (k : List Char) (v : Json) :
    List (List Char × Json) :=
  if kvs.any (fun p => p.1 == k) then
    kvs.map (fun p => if p.1 = k then (k, v) else p)
  else kvs ++ [(k, v)]

/-- JSON whitespace. -/
def isJsonWs (c : Char) : Bool :=
  c == ' ' || c == '\n' || c == '\t' || c == '\r'

/-- Skip JSON whitespace. -/
def skipWs (cs : List Char) : List Char := cs.dropWhile isJsonWs

/-- Hexadecimal digit value. -/
def hexVal (c : Char) : Option Nat :=
  if '0' ≤ c ∧ c ≤ '9' then some (c.toNat - '0'.toNat)
  else if 'a' ≤ c ∧ c ≤ 'f' then some (c.toNat - 'a'.toNat + 10)
  else if 'A' ≤ c ∧ c ≤ 'F' then some (c.toNat - 'A'.toNat + 10)
  else none

/-- Single-character JSON escapes accepted by `json.loads`. -/
def escChar (e : Char) : Option Char :=
  if e = '"' then some '"'
  else if e = '\\' then some '\\'
  else if e = '/' then some '/'
  else if e = 'b' then some (Char.ofNat 8)
  else if e = 'f' then some (Char.ofNat 12)
  else if e = 'n' then some '\n'
  else if e = 'r' then some (Char.ofNat 13)
  else if e = 't' then some (Char.ofNat 9)
  else none

/-- Parse a JSON string body up to the closing quote, decoding escapes;
returns the decoded text and the remainder after the closing quote.  Raw
control characters are rejected, as in `json.loads`. -/
def parseStringBody : List Char → Option (List Char × List Char)
  | [] => none
  | '"' :: rest => some ([], rest)
  | '\\' :: e :: rest =>
    if e = 'u' then
      match rest with
      | h1 :: h2 :: h3 :: h4 :: rest2 =>
        match hexVal h1, hexVal h2, hexVal h3, hexVal h4 with
        | some a, some b, some c, some d =>
          match parseStringBody rest2 with
          | some (s, r) =>
            some (Char.ofNat (((a * 16 + b) * 16 + c) * 16 + d) :: s, r)
          | none => none
        | _, _, _, _ => none
      | _ => none
    else
      match escChar e with
      | some c =>
        match parseStringBody rest with
        | some (s, r) => some (c :: s, r)
        | none => none
      | none => none
  | c :: rest =>
    if c.toNat < 32 then none
    else
      match parseStringBody rest with
      | some (s, r) => some (c :: s, r)
      | none => none

/-- Characters that may occur in a JSON number lexeme. -/
def isNumChar (c : Char) : Bool :=
  c.isDigit || c == '-' || c == '+' || c == '.' || c == 'e' || c == 'E'

/-- One-or-more digits; returns the remainder on success. -/
def digits1 (l : List Char) : Option (List Char) :=
  let ds := l.takeWhile Char.isDigit
  if ds = [] then none else some (l.dropWhile Char.isDigit)

/-- Optional exponent part of a JSON number, which must end the lexeme. -/
def validExp : List Char → Bool
  | [] => true
  | c :: r =>
    if c == 'e' || c == 'E' then
      let r2 := match r with
        | s :: rr => if s == '+' || s == '-' then rr else s :: rr
        | [] => []
      match digits1 r2 with
      | some [] => true
      | _ => false
    else false

/-- Optional fraction part of a JSON number, then the exponent part. -/
def validFrac : List Char → Bool
  | '.' :: r =>
    (match digits1 r with
     | some rest => validExp rest
     | none => false)
  | l => validExp l

/-- The JSON number grammar
`-?(0|[1-9][0-9]*)(\.[0-9]+)?([eE][+-]?[0-9]+)?` on a whole lexeme. -/
def validNum (l : List Char) : Bool :=
  let l1 := match l with
    | '-' :: r => r
    | r => r
  match l1 with
  | [] => false
  | '0' :: r =>
    (match r with
     | c :: _ => !c.isDigit
     | [] => true) && validFrac r
  | c :: r => c.isDigit && validFrac ((c :: r).dropWhile Char.isDigit)

mutual

/-- Parse one JSON value at the head of `cs`, consuming leading whitespace. -/
def parseValue : Nat → List Char → Option (Json × List Char)
  | 0, _ => none
  | fuel + 1, cs =>
    match skipWs cs with
    | [] => none
    | c :: rest =>
      if c = lbrace then
        match skipWs rest with
        | d :: rest2 =>
          if d = rbrace then some (Json.obj [], rest2)
          else parseMembers fuel [] (d :: rest2)
        | [] => none
      else if c = '[' then
        match skipWs rest with
        | ']' :: rest2 => some (Json.arr [], rest2)
        | other => parseItems fuel [] other
      else if c = '"' then
        match parseStringBody rest with
        | some (s, r) => some (Json.str s, r)
        | none => none
      else if leadsWith "true".data (c :: rest) = true then
        some (Json.bool true, (c :: rest).drop 4)
      else if leadsWith "false".data (c :: rest) = true then
        some (Json.bool false, (c :: rest).drop 5)
      else if leadsWith "null".data (c :: rest) = true then
        some (Json.null, (c :: rest).drop 4)
      else
        let lex := (c :: rest).takeWhile isNumChar
        if validNum lex = true then
          some (Json.num lex, (c :: rest).dropWhile isNumChar)
        else none

/-- Parse object members, positioned at a key; `acc` holds members so far. -/
def parseMembers : Nat → List (List Char × Json) → List Char →
    Option (Json × List Char)
  | 0, _, _ => none
  | fuel + 1, acc, cs =>
    match skipWs cs with
    | '"' :: rest =>
      match parseStringBody rest with
      | some (k, r2) =>
        match skipWs r2 with
        | ':' :: r3 =>
          match parseValue fuel r3 with
          | some (v, r4) =>
            match skipWs r4 with
            | ',' :: r5 => parseMembers fuel (insertKV acc k v) r5
            | d :: r5 =>
              if d = rbrace then some (Json.obj (insertKV acc k v), r5)
              else none
            | [] => none
          | none => none
        | _ => none
      | none => none
    | _ => none

/-- Parse array items, positioned at a value; `acc` holds items so far. -/
def parseItems : Nat → List Json → List Char → Option (Json × List Char)
  | 0, _, _ => none
  | fuel + 1, acc, cs =>
    match parseValue fuel cs with
    | some (v, r) =>
      match skipWs r with
      | ',' :: r2 => parseItems fuel (acc ++ [v]) r2
      | ']' :: r2 => some (Json.arr (acc ++ [v]), r2)
      | _ => none
    | none => none

end

/-- `json.loads`: parse one value, then require only trailing whitespace. -/
def json_loads (cs : List Char) : Option Json :=
  match parseValue (cs.length + 1) cs with
  | some (j, rest) => if skipWs rest = [] then some j else none
  | none => none

/-- Python `len` on a parsed JSON value: defined for dict, list and str (the
types with `__len__` among those `json.loads` returns); `none` models the
`TypeError` raised otherwise. -/
def pyLen : Json → Option Nat
  | Json.obj kvs => some kvs.length
  | Json.arr xs => some xs.length
  | Json.str s => some s.length
  | _ => none

/-- Python `.keys()`: only a dict has it; `none` models `AttributeError`. -/
def pyKeys : Json → Option (List (List Char))
  | Json.obj kvs => some (kvs.map Prod.fst)
  | _ => none

/-- The two compared sources. -/
inductive Source where
  | cursor : Source
  | ours : Source

/-- Console output, abstracted event by event: the `<SRC> TOOLS: <n> tools`
line, the `First 10 tools: <keys>` line, the
`Could not find JSON start in our output` line, and the per-source
`Failed to parse ... JSON: <e>` line of an `except` handler. -/
inductive OutEvent where
  | toolCount : Source → Nat → OutEvent
  | firstTen : Source → List (List Char) → OutEvent
  | noJsonStart : OutEvent
  | parseFail : Source → OutEvent

/-- The two `print` calls inside a `try`: a `len` failure is caught before
anything is printed; a `.keys()` failure (non-dict value) is caught after the
count line was already printed. -/
def reportTools (src : Source) (parsed : Option Json) : List OutEvent :=
  match parsed with
  | none => [OutEvent.parseFail src]
  | some j =>
    match pyLen j with
    | none => [OutEvent.parseFail src]
    | some n =>
      OutEvent.toolCount src n ::
        (match pyKeys j with
         | none => [OutEvent.parseFail src]
         | some ks => [OutEvent.firstTen src (ks.take 10)])

/-- The opening marker of the first strategy (backticks, `json`, newline,
opening brace). -/
def cursorMarker : List Char := "```json\n".data ++ [lbrace]

/-- The closing-fence search text of the first strategy. -/
def fenceMarker : List Char := "\n```".data

/-- The first extraction strategy: marker-delimited slice
`cursor_content[json_start+8:json_end]`; either `find` may return `-1`, in
which case Python's negative indexing applies to the slice. -/
def extractCursorJson (content : List Char) : List Char :=
  let json_start := pyFind content cursorMarker 0
  let json_end := pyFind content fenceMarker json_start
  pySlice content (json_start + 8) json_end

/-- The first `try` block: parse the extracted slice and report. -/
def processCursor (content : List Char) : List OutEvent :=
  reportTools Source.cursor (json_loads (extractCursorJson content))

/-- The second strategy's brace-depth scan: the index at which the running
count of opening minus closing braces returns to zero on a closing brace, if
the loop ever breaks. -/
def braceEnd (depth : Int) (i : Nat) : List Char → Option Nat
  | [] => none
  | c :: cs =>
    if c = lbrace then braceEnd (depth + 1) (i + 1) cs
    else if c = rbrace then
      if depth - 1 = 0 then some i else braceEnd (depth - 1) (i + 1) cs
    else braceEnd depth (i + 1) cs

/-- The opening marker of the second strategy: brace, newline, two spaces,
quote. -/
def ourMarker : List Char := lbrace :: "\n  \"".data

/-- The second `try` block's body, given the content of `actual_output.txt`:
find the marker, report when absent, otherwise brace-scan and parse.  When the
scan never closes, `our_json_str` is left unassigned and `json.loads` raises a
`NameError`, caught by the same handler as a parse failure. -/
def processOur (content : List Char) : List OutEvent :=
  let json_start := pyFind content ourMarker 0
  if json_start = -1 then [OutEvent.noJsonStart]
  else
    match braceEnd 0 0 (content.drop json_start.toNat) with
    | none => [OutEvent.parseFail Source.ours]
    | some i =>
      reportTools Source.ours
        (json_loads ((content.drop json_start.toNat).take (i + 1)))

/-- Result of one run: the console events in order, and whether the process
was terminated by an uncaught exception. -/
structure RunResult where
  output : List OutEvent
  crashed : Bool

/-- The whole script, as a function of the two file contents (`none` models an
unreadable or missing file).  The first `open` stands outside any `try`: an
unreadable first file raises an uncaught `OSError` and nothing is printed.
The second file's `open` is inside the second `try`, so its failure is caught
and reported by that handler. -/
def count_real_tools (cursorFile actualFile : Option (List Char)) : RunResult :=
  match cursorFile with
  | none => { output := [], crashed := true }
  | some cursor_content =>
    let ev1 := processCursor cursor_content
    let ev2 :=
      match actualFile with
      | none => [OutEvent.parseFail Source.ours]
      | some our_content => processOur our_content
    { output := ev1 ++ ev2, crashed := false }

/-! ### 5. Helper lemmas -/

lemma splitNl_ne_nil (cs : List Char) : splitNl cs ≠ [] := by
  induction cs with
  | nil => simp [splitNl]
  | cons c cs ih =>
    unfold splitNl
    split
    · simp
    · split
      · simp
      · simp

lemma joinNl_splitNl (cs : List Char) : joinNl (splitNl cs) = cs := by
  induction cs with
  | nil => rfl
  | cons c cs ih =>
    unfold splitNl
    by_cases h : c = '\n'
    · subst h
      rw [if_pos rfl]
      obtain ⟨l, ls, hl⟩ : ∃ l ls, splitNl cs = l :: ls := by
        cases hsp : splitNl cs with
        | nil => exact absurd hsp (splitNl_ne_nil cs)
        | cons l ls => exact ⟨l, ls, rfl⟩
      rw [hl] at ih ⊢
      show ([] : List Char) ++ '\n' :: joinNl (l :: ls) = '\n' :: cs
      rw [ih]
      rfl
    · rw [if_neg h]
      obtain ⟨l, ls, hl⟩ : ∃ l ls, splitNl cs = l :: ls := by
        cases hsp : splitNl cs with
        | nil => exact absurd hsp (splitNl_ne_nil cs)
        | cons l ls => exact ⟨l, ls, rfl⟩
      rw [hl] at ih ⊢
      cases ls with
      | nil =>
        show c :: l = c :: cs
        rw [show l = cs from ih]
      | cons x xs =>
        show (c :: l) ++ '\n' :: joinNl (x :: xs) = c :: cs
        rw [← ih]
        rfl

lemma splitNl_of_no_newline (cs : List Char) (h : ∀ c ∈ cs, c ≠ '\n') :
    splitNl cs = [cs] := by
  induction cs with
  | nil => rfl
  | cons c cs ih =>
    unfold splitNl
    rw [if_neg (h c (List.mem_cons_self c cs))]
    rw [ih (fun a ha => h a (List.mem_cons_of_mem c ha))]

lemma captureAt_of_ne_lbrack (c : Char) (cs : List Char) (h : c ≠ '[') :
    captureAt (c :: cs) = none := by
  cases cs with
  | nil => rfl
  | cons c2 rest => simp [captureAt, h]

lemma matchNumAt_of_ne_lbrack (num : List Char) (c : Char) (cs : List Char) (h : c ≠ '[') :
    matchNumAt num (c :: cs) = none := by
  cases cs with
  | nil => rfl
  | cons c2 rest => simp [matchNumAt, h]

lemma searchTaskRef_append (pre tail : List Char) (h : ∀ c ∈ pre, c ≠ '[') :
    searchTaskRef (pre ++ tail) = searchTaskRef tail := by
  induction pre with
  | nil => rfl
  | cons c pre ih =>
    have hc := captureAt_of_ne_lbrack c (pre ++ tail) (h c (List.mem_cons_self c pre))
    show (match captureAt (c :: (pre ++ tail)) with
          | some ds => some ds
          | none => searchTaskRef (pre ++ tail)) = searchTaskRef tail
    rw [hc]
    exact ih (fun a ha => h a (List.mem_cons_of_mem c ha))

lemma subAllAux_append (num repl pre tail : List Char) (h : ∀ c ∈ pre, c ≠ '[') :
    subAllAux num repl (pre ++ tail) 0 = pre ++ subAllAux num repl tail 0 := by
  induction pre with
  | nil => rfl
  | cons c pre ih =>
    have hm := matchNumAt_of_ne_lbrack num c (pre ++ tail) (h c (List.mem_cons_self c pre))
    show (match matchNumAt num (c :: (pre ++ tail)) with
          | some rest =>
            repl ++ subAllAux num repl (pre ++ tail) ((pre ++ tail).length - rest.length)
          | none => c :: subAllAux num repl (pre ++ tail) 0)
        = (c :: pre) ++ subAllAux num repl tail 0
    rw [hm, ih (fun a ha => h a (List.mem_cons_of_mem c ha))]
    rfl

lemma subAllAux_id (num repl cs : List Char) (h : ∀ c ∈ cs, c ≠ '[') :
    subAllAux num repl cs 0 = cs := by
  have h2 := subAllAux_append num repl cs [] h
  rw [List.append_nil, show subAllAux num repl ([] : List Char) 0 = [] from rfl,
      List.append_nil] at h2
  exact h2

lemma subAllAux_skip (num repl l1 l2 : List Char) :
    subAllAux num repl (l1 ++ l2) l1.length = subAllAux num repl l2 0 := by
  induction l1 with
  | nil => rfl
  | cons c l1 ih =>
    show subAllAux num repl (c :: (l1 ++ l2)) (l1.length + 1) = _
    rw [show subAllAux num repl (c :: (l1 ++ l2)) (l1.length + 1)
          = subAllAux num repl (l1 ++ l2) l1.length from rfl]
    exact ih

lemma takeWhile_append_cons {p : Char → Bool} (l1 : List Char) (x : Char) (l2 : List Char)
    (h1 : ∀ a ∈ l1, p a = true) (hx : p x = false) :
    (l1 ++ x :: l2).takeWhile p = l1 ∧ (l1 ++ x :: l2).dropWhile p = x :: l2 := by
  induction l1 with
  | nil => simp [List.takeWhile, List.dropWhile, hx]
  | cons a l1 ih =>
    have ha : p a = true := h1 a (List.mem_cons_self a l1)
    have ih2 := ih (fun b hb => h1 b (List.mem_cons_of_mem a hb))
    constructor
    · show List.takeWhile p (a :: (l1 ++ x :: l2)) = a :: l1
      rw [List.takeWhile_cons, ha]
      simp [ih2.1]
    · show List.dropWhile p (a :: (l1 ++ x :: l2)) = x :: l2
      rw [List.dropWhile_cons, ha]
      simp [ih2.2]

lemma leadsWith_append (l r : List Char) : leadsWith l (l ++ r) = true := by
  induction l with
  | nil => rfl
  | cons a l ih =>
    show leadsWith (a :: l) (a :: (l ++ r)) = true
    unfold leadsWith
    simp [ih]

lemma matchPath_spec (foo post : List Char)
    (hne : foo ≠ []) (hpar : ∀ c ∈ foo, c ≠ ')') :
    matchPath (foo ++ '.' :: 'm' :: 'd' :: ')' :: post) = some post := by
  have hassoc : foo ++ '.' :: 'm' :: 'd' :: ')' :: post
      = (foo ++ ['.', 'm', 'd']) ++ ')' :: post := by simp
  have hall : ∀ a ∈ foo ++ ['.', 'm', 'd'], (a != ')') = true := by
    intro a ha
    rcases List.mem_append.1 ha with h | h
    · simpa using hpar a h
    · fin_cases h <;> decide
  have hx : ((')' : Char) != ')') = false := by decide
  have htw := takeWhile_append_cons (p := fun c => c != ')')
      (foo ++ ['.', 'm', 'd']) ')' post hall hx
  have hlen : (foo ++ ['.', 'm', 'd']).length = foo.length + 3 := by simp
  have hcond : 4 ≤ (foo ++ ['.', 'm', 'd']).length ∧
      (foo ++ ['.', 'm', 'd']).drop ((foo ++ ['.', 'm', 'd']).length - 3)
        = ['.', 'm', 'd'] := by
    constructor
    · rw [hlen]
      have : 1 ≤ foo.length := List.length_pos.2 hne
      omega
    · rw [hlen]
      have : foo.length + 3 - 3 = foo.length := by omega
      rw [this]
      exact List.drop_left foo ['.', 'm', 'd']
  unfold matchPath
  rw [hassoc, htw.1, htw.2]
  show (if 4 ≤ (foo ++ ['.', 'm', 'd']).length ∧
          (foo ++ ['.', 'm', 'd']).drop ((foo ++ ['.', 'm', 'd']).length - 3)
            = ['.', 'm', 'd']
        then some post else none) = some post
  rw [if_pos hcond]

lemma takeWhile_digits (num : List Char) (r : List Char)
    (hnum : ∀ c ∈ num, c.isDigit = true) :
    (num ++ ']' :: r).takeWhile Char.isDigit = num ∧
    (num ++ ']' :: r).dropWhile Char.isDigit = ']' :: r :=
  takeWhile_append_cons num ']' r hnum (by decide)

lemma matchNumAt_spec (num foo post : List Char)
    (hfoo_ne : foo ≠ []) (hfoo : ∀ c ∈ foo, c ≠ ')') :
    matchNumAt num
        ('[' :: '#' :: (num ++ ']' :: '(' ::
          ("process/tasks/".data ++ (foo ++ '.' :: 'm' :: 'd' :: ')' :: post))))
      = some post := by
  have hdrop1 : (num ++ ']' :: '(' ::
      ("process/tasks/".data ++ (foo ++ '.' :: 'm' :: 'd' :: ')' :: post))).drop num.length
      = ']' :: '(' :: ("process/tasks/".data ++ (foo ++ '.' :: 'm' :: 'd' :: ')' :: post)) :=
    List.drop_left num _
  have hdrop2 : ("process/tasks/".data ++ (foo ++ '.' :: 'm' :: 'd' :: ')' :: post)).drop 14
      = foo ++ '.' :: 'm' :: 'd' :: ')' :: post := List.drop_left' rfl
  simp only [matchNumAt, hdrop1, hdrop2]
  rw [if_pos ⟨trivial, trivial, leadsWith_append num _⟩,
      if_pos ⟨trivial, trivial, leadsWith_append _ _⟩]
  exact matchPath_spec foo post hfoo_ne hfoo

lemma captureAt_spec (num foo post : List Char)
    (hnum_ne : num ≠ []) (hnum : ∀ c ∈ num, c.isDigit = true)
    (hfoo_ne : foo ≠ []) (hfoo : ∀ c ∈ foo, c ≠ ')') :
    captureAt
        ('[' :: '#' :: (num ++ ']' :: '(' ::
          ("process/tasks/".data ++ (foo ++ '.' :: 'm' :: 'd' :: ')' :: post))))
      = some num := by
  have htw := takeWhile_digits num ('(' ::
      ("process/tasks/".data ++ (foo ++ '.' :: 'm' :: 'd' :: ')' :: post))) hnum
  have hdrop2 : ("process/tasks/".data ++ (foo ++ '.' :: 'm' :: 'd' :: ')' :: post)).drop 14
      = foo ++ '.' :: 'm' :: 'd' :: ')' :: post := List.drop_left' rfl
  have hmp := matchPath_spec foo post hfoo_ne hfoo
  simp only [captureAt, htw.1, htw.2, hdrop2]
  rw [if_pos ⟨trivial, trivial⟩, if_neg hnum_ne,
      if_pos ⟨trivial, trivial, leadsWith_append _ _, by rw [hmp]; rfl⟩]

lemma fixLineCore_rewrite (tf : List (List Char × List Char))
    (pre num foo post fp : List Char)
    (hpre : ∀ c ∈ pre, c ≠ '[')
    (hnum_ne : num ≠ []) (hnum : ∀ c ∈ num, c.isDigit = true)
    (hfoo_ne : foo ≠ []) (hfoo : ∀ c ∈ foo, c ≠ ')')
    (hpost : ∀ c ∈ post, c ≠ '[')
    (hlk : lookupA num tf = some fp) :
    fixLineCore tf
        (pre ++ '[' :: '#' :: (num ++ ']' :: '(' ::
          ("process/tasks/".data ++ (foo ++ '.' :: 'm' :: 'd' :: ')' :: post))))
      = pre ++ '[' :: '#' :: (num ++ ']' :: '(' ::
          ("process/".data ++ (fp ++ ')' :: post))) := by
  set M := '[' :: '#' :: (num ++ ']' :: '(' ::
      ("process/tasks/".data ++ (foo ++ '.' :: 'm' :: 'd' :: ')' :: post))) with hM
  have hcap : captureAt M = some num :=
    captureAt_spec num foo post hnum_ne hnum hfoo_ne hfoo
  have hsearchM : searchTaskRef M = some num := by
    rw [hM]
    show (match captureAt M with
          | some ds => some ds
          | none => searchTaskRef ('#' :: (num ++ ']' :: '(' ::
              ("process/tasks/".data ++ (foo ++ '.' :: 'm' :: 'd' :: ')' :: post))))) = some num
    rw [hcap]
  have hsearch : searchTaskRef (pre ++ M) = some num := by
    rw [searchTaskRef_append pre M hpre, hsearchM]
  simp only [fixLineCore, hsearch, hlk]
  unfold subAll
  rw [subAllAux_append _ _ pre M hpre]
  have hmn : matchNumAt num M = some post :=
    matchNumAt_spec num foo post hfoo_ne hfoo
  set Mtail := '#' :: (num ++ ']' :: '(' ::
      ("process/tasks/".data ++ (foo ++ '.' :: 'm' :: 'd' :: ')' :: post))) with hMtail
  set mid := '#' :: (num ++ ']' :: '(' ::
      ("process/tasks/".data ++ (foo ++ ['.', 'm', 'd', ')']))) with hmid
  have hsplit : Mtail = mid ++ post := by
    rw [hMtail, hmid]
    simp
  have hstep : subAllAux num
      ("[#".data ++ num ++ "](process/".data ++ fp ++ ")".data) M 0
      = ("[#".data ++ num ++ "](process/".data ++ fp ++ ")".data) ++ post := by
    show (match matchNumAt num M with
          | some rest =>
            ("[#".data ++ num ++ "](process/".data ++ fp ++ ")".data) ++
              subAllAux num ("[#".data ++ num ++ "](process/".data ++ fp ++ ")".data)
                Mtail (Mtail.length - rest.length)
          | none =>
            '[' :: subAllAux num
              ("[#".data ++ num ++ "](process/".data ++ fp ++ ")".data) Mtail 0)
        = ("[#".data ++ num ++ "](process/".data ++ fp ++ ")".data) ++ post
    simp only [hmn]
    have hlenmid : Mtail.length - post.length = mid.length := by
      rw [hsplit]
      simp
    rw [hlenmid, hsplit, subAllAux_skip, subAllAux_id _ _ post hpost]
  rw [hstep]
  have e1 : "[#".data = ['[', '#'] := rfl
  have e2 : "](process/".data = ']' :: '(' :: "process/".data := rfl
  have e3 : ")".data = [')'] := rfl
  rw [e1, e2, e3]
  simp

lemma fix_tasks_md_single_line (listing : List (List Char)) (content : List Char)
    (h : ∀ c ∈ content, c ≠ '\n') :
    fix_tasks_md listing content = fixLineCore (task_files listing) content := by
  unfold fix_tasks_md
  rw [splitNl_of_no_newline content h]
  rfl

lemma lookupA_mem (k : List Char) (l : List (List Char × List Char)) (v : List Char)
    (h : lookupA k l = some v) : (k, v) ∈ l := by
  induction l with
  | nil => simp [lookupA] at h
  | cons p rest ih =>
    obtain ⟨k2, v2⟩ := p
    rw [show lookupA k ((k2, v2) :: rest)
          = if k = k2 then some v2 else lookupA k rest from rfl] at h
    by_cases hk : k = k2
    · rw [if_pos hk] at h
      have hv : v2 = v := Option.some.inj h
      subst hk
      subst hv
      exact List.mem_cons_self _ _
    · rw [if_neg hk] at h
      exact List.mem_cons_of_mem _ (ih h)

lemma mem_insertSorted (a x : List Char) (l : List (List Char))
    (h : a ∈ insertSorted x l) : a = x ∨ a ∈ l := by
  induction l with
  | nil =>
    simp [insertSorted] at h
    exact Or.inl h
  | cons y ys ih =>
    unfold insertSorted at h
    by_cases hle : listLe x y = true
    · rw [if_pos hle] at h
      simpa using h
    · rw [if_neg hle] at h
      rcases List.mem_cons.1 h with h1 | h1
      · exact Or.inr (by simp [h1])
      · rcases ih h1 with h2 | h2
        · exact Or.inl h2
        · exact Or.inr (List.mem_cons_of_mem y h2)

lemma mem_sortedStrings (a : List Char) (l : List (List Char))
    (h : a ∈ sortedStrings l) : a ∈ l := by
  induction l with
  | nil => simp [sortedStrings] at h
  | cons x xs ih =>
    rcases mem_insertSorted a x (sortedStrings xs) h with h1 | h1
    · simp [h1]
    · exact List.mem_cons_of_mem x (ih h1)

lemma task_files_shape (listing : List (List Char)) (k v : List Char)
    (h : (k, v) ∈ task_files listing) :
    ∃ f ∈ listing, globMatch f = true ∧ v = "tasks/".data ++ f
      ∧ taskNumOf (basename v) = some k := by
  unfold task_files at h
  rw [List.mem_reverse] at h
  obtain ⟨fp, hfp, hmap⟩ := List.mem_filterMap.1 h
  obtain ⟨n, hn, heq⟩ := Option.map_eq_some'.1 hmap
  have hnk : n = k := congrArg Prod.fst heq
  have hfv : fp = v := congrArg Prod.snd heq
  subst hnk
  subst hfv
  have hfp2 := mem_sortedStrings _ _ hfp
  obtain ⟨f, hf, hfe⟩ := List.mem_map.1 hfp2
  have hfilter := List.mem_filter.1 hf
  exact ⟨f, hfilter.1, hfilter.2, hfe.symm, hn⟩

lemma fixLineCore_of_unmapped (tf : List (List Char × List Char)) (l : List Char)
    (h : lineUnmapped tf l = true) : fixLineCore tf l = l := by
  unfold lineUnmapped at h
  cases hs : searchTaskRef l with
  | none => simp only [fixLineCore, hs]
  | some num =>
    rw [hs] at h
    rw [Option.isNone_iff_eq_none] at h
    simp only [fixLineCore, hs, h]

lemma map_id_of_mem {α : Type} (l : List α) (f : α → α) (h : ∀ x ∈ l, f x = x) :
    l.map f = l := by
  induction l with
  | nil => rfl
  | cons x xs ih =>
    simp only [List.map_cons, h x (List.mem_cons_self x xs),
      ih (fun a ha => h a (List.mem_cons_of_mem x ha))]

lemma foldl_applyWrite_not_mem (ws : List (String × String))
    (fs : String → Option String) (q : String) (h : q ∉ ws.map Prod.fst) :
    (ws.foldl applyWrite fs) q = fs q := by
  induction ws generalizing fs with
  | nil => rfl
  | cons w rest ih =>
    have hq : q ∉ rest.map Prod.fst := fun hm => h (List.mem_cons_of_mem _ hm)
    have hqw : q ≠ w.1 := by
      intro he
      exact h (by simp [he])
    show (rest.foldl applyWrite (applyWrite fs w)) q = fs q
    rw [ih (applyWrite fs w) hq]
    unfold applyWrite
    rw [if_neg hqw]

lemma foldl_applyWrite_congr (ws : List (String × String))
    (fs1 fs2 : String → Option String)
    (h : ∀ q, q ∉ ws.map Prod.fst → fs1 q = fs2 q) :
    ws.foldl applyWrite fs1 = ws.foldl applyWrite fs2 := by
  induction ws generalizing fs1 fs2 with
  | nil => funext q; exact h q (by simp)
  | cons w rest ih =>
    show rest.foldl applyWrite (applyWrite fs1 w)
        = rest.foldl applyWrite (applyWrite fs2 w)
    apply ih
    intro q hq
    unfold applyWrite
    by_cases hw : q = w.1
    · rw [if_pos hw, if_pos hw]
    · rw [if_neg hw, if_neg hw]
      exact h q (by simp [hw, hq])

lemma body_head_ok (s : String) (c : Char) (h : s.data.head? = some c)
    (hc : c ≠ '\n') : s ≠ "" ∧ s.data.head? ≠ some '\n' := by
  constructor
  · intro he
    rw [he] at h
    exact Option.noConfusion h
  · rw [h]
    intro he
    exact hc (Option.some.inj he)

lemma reportTools_ne_nil (src : Source) (p : Option Json) :
    reportTools src p ≠ [] := by
  cases p with
  | none => simp [reportTools]
  | some j => cases j <;> simp [reportTools, pyLen, pyKeys]

lemma processOur_ne_nil (o : List Char) : processOur o ≠ [] := by
  simp only [processOur]
  split
  · simp
  · split
    · simp
    · exact reportTools_ne_nil _ _

/-! ### 6. Claim theorems and witnesses -/

/-- C1: for every tasks.md line of the form
`- [#007](process/tasks/<foo>.md)<title>` and the file `007-bar.md` present in
the tasks directory, the repairer rewrites the line's link path to
`process/tasks/007-bar.md` and leaves every other character of the line
(including the title text) unchanged.  `<foo>` is any nonempty path fragment
without `)` (a fragment with `)` would not be part of the link pattern), and
`<title>` is any trailing text free of `[` and of line breaks. -/
theorem repairer_rewrites_mapped_line (foo title : List Char)
    (hfoo_ne : foo ≠ []) (hfoo_par : ∀ c ∈ foo, c ≠ ')')
    (hfoo_nl : ∀ c ∈ foo, c ≠ '\n')
    (htitle_lb : ∀ c ∈ title, c ≠ '[') (htitle_nl : ∀ c ∈ title, c ≠ '\n') :
    fix_tasks_md ["007-bar.md".data]
        ("- [#007](process/tasks/".data ++ foo ++ ".md)".data ++ title)
      = "- [#007](process/tasks/007-bar.md)".data ++ title := by
  have hlk : lookupA "007".data (task_files ["007-bar.md".data])
      = some "tasks/007-bar.md".data := by decide
  have hmain := fixLineCore_rewrite (task_files ["007-bar.md".data])
      "- ".data "007".data foo title "tasks/007-bar.md".data
      (by decide) (by decide) (by decide) hfoo_ne hfoo_par htitle_lb hlk
  have hA : ∀ c ∈ "- [#007](process/tasks/".data, c ≠ '\n' := by decide
  have hB : ∀ c ∈ ".md)".data, c ≠ '\n' := by decide
  have hnl : ∀ c ∈ "- [#007](process/tasks/".data ++ foo ++ ".md)".data ++ title,
      c ≠ '\n' := by
    intro c hc
    simp only [List.mem_append] at hc
    rcases hc with ((h1 | h2) | h3) | h4
    · exact hA c h1
    · exact hfoo_nl c h2
    · exact hB c h3
    · exact htitle_nl c h4
  rw [fix_tasks_md_single_line _ _ hnl]
  have hLine : "- [#007](process/tasks/".data ++ foo ++ ".md)".data ++ title
      = "- ".data ++ '[' :: '#' :: ("007".data ++ ']' :: '(' ::
          ("process/tasks/".data ++ (foo ++ '.' :: 'm' :: 'd' :: ')' :: title))) := by
    rw [show "- [#007](process/tasks/".data
          = "- ".data ++ '[' :: '#' :: ("007".data ++ ']' :: '(' ::
              "process/tasks/".data) from rfl,
        show ".md)".data = ['.', 'm', 'd', ')'] from rfl]
    simp
  have hRhs : "- [#007](process/tasks/007-bar.md)".data ++ title
      = "- ".data ++ '[' :: '#' :: ("007".data ++ ']' :: '(' ::
          ("process/".data ++ ("tasks/007-bar.md".data ++ ')' :: title))) := by
    rw [show "- [#007](process/tasks/007-bar.md)".data
          = ("- ".data ++ '[' :: '#' :: ("007".data ++ ']' :: '(' ::
              ("process/".data ++ "tasks/007-bar.md".data))) ++ [')'] from rfl]
    simp
  rw [hLine, hRhs]
  exact hmain

/-- Witness for C1 at `foo := "foo"`, `title := " Some title"`. -/
theorem repairer_rewrites_mapped_line_witness :
    fix_tasks_md ["007-bar.md".data]
        ("- [#007](process/tasks/".data ++ "foo".data ++ ".md)".data
          ++ " Some title".data)
      = "- [#007](process/tasks/007-bar.md)".data ++ " Some title".data :=
  repairer_rewrites_mapped_line "foo".data " Some title".data
    (by decide) (by decide) (by decide) (by decide) (by decide)

/-- C2 (counterexample): the dict built by the repairer does NOT map a task
number to the file's path relative to the tasks directory; it maps it to the
glob path `tasks/<name>`.  On the concrete input below, the behaviour the claim
describes (`fix_tasks_md_claim`, built verbatim from the claim's words) yields
`process/007-bar.md`, while the code yields `process/tasks/007-bar.md`. -/
theorem task_files_relative_path_counterexample :
    fix_tasks_md ["007-bar.md".data] "- [#007](process/tasks/foo.md) T".data
      = "- [#007](process/tasks/007-bar.md) T".data ∧
    fix_tasks_md_claim ["007-bar.md".data] "- [#007](process/tasks/foo.md) T".data
      = "- [#007](process/007-bar.md) T".data ∧
    fix_tasks_md ["007-bar.md".data] "- [#007](process/tasks/foo.md) T".data
      ≠ fix_tasks_md_claim ["007-bar.md".data] "- [#007](process/tasks/foo.md) T".data := by
  refine ⟨by decide, by decide, by decide⟩

/-- C2 (amended): the repairer builds a mapping from each task number to the
matched file's path as produced by the directory scan — `tasks/<filename>`,
i.e. relative to the script's working directory, not relative to the tasks
directory — and for every index line whose referenced task number is a key of
this mapping it rewrites the link's path portion to `process/<mapped-path>`,
preserving the rest of the line unchanged. -/
theorem task_files_mapping_and_rewrite (listing : List (List Char))
    (num fp pre foo post : List Char)
    (hlk : lookupA num (task_files listing) = some fp)
    (hpre : ∀ c ∈ pre, c ≠ '[')
    (hnum_ne : num ≠ []) (hnum : ∀ c ∈ num, c.isDigit = true)
    (hfoo_ne : foo ≠ []) (hfoo : ∀ c ∈ foo, c ≠ ')')
    (hpost : ∀ c ∈ post, c ≠ '[') :
    (∃ f ∈ listing, globMatch f = true ∧ fp = "tasks/".data ++ f
      ∧ taskNumOf (basename fp) = some num) ∧
    fixLineCore (task_files listing)
        (pre ++ '[' :: '#' :: (num ++ ']' :: '(' ::
          ("process/tasks/".data ++ (foo ++ '.' :: 'm' :: 'd' :: ')' :: post))))
      = pre ++ '[' :: '#' :: (num ++ ']' :: '(' ::
          ("process/".data ++ (fp ++ ')' :: post))) := by
  constructor
  · exact task_files_shape listing num fp (lookupA_mem num _ fp hlk)
  · exact fixLineCore_rewrite (task_files listing) pre num foo post fp
      hpre hnum_ne hnum hfoo_ne hfoo hpost hlk

/-- Witness for the amended C2 on a concrete listing and line. -/
theorem task_files_mapping_and_rewrite_witness :
    (∃ f ∈ ["007-bar.md".data], globMatch f = true
      ∧ "tasks/007-bar.md".data = "tasks/".data ++ f
      ∧ taskNumOf (basename "tasks/007-bar.md".data) = some "007".data) ∧
    fixLineCore (task_files ["007-bar.md".data])
        ("- ".data ++ '[' :: '#' :: ("007".data ++ ']' :: '(' ::
          ("process/tasks/".data ++ ("foo".data ++ '.' :: 'm' :: 'd' :: ')' :: " t".data))))
      = "- ".data ++ '[' :: '#' :: ("007".data ++ ']' :: '(' ::
          ("process/".data ++ ("tasks/007-bar.md".data ++ ')' :: " t".data))) :=
  task_files_mapping_and_rewrite ["007-bar.md".data]
    "007".data "tasks/007-bar.md".data "- ".data "foo".data " t".data
    (by decide) (by decide) (by decide) (by decide) (by decide) (by decide) (by decide)

/-- C7: a line whose referenced task number is not a key of the built mapping
(no file under `tasks/` carries that numeric prefix) passes through unchanged;
the lookup miss is not an error, the line is simply kept. -/
theorem missing_task_number_line_unchanged (listing : List (List Char))
    (line num : List Char)
    (h1 : searchTaskRef line = some num)
    (h2 : lookupA num (task_files listing) = none) :
    fixLineCore (task_files listing) line = line := by
  simp only [fixLineCore, h1, h2]

/-- Witness for C7: task `042` has no file, the line is kept byte-for-byte. -/
theorem missing_task_number_line_unchanged_witness :
    fixLineCore (task_files ["007-bar.md".data])
        "- [#042](process/tasks/foo.md) t".data
      = "- [#042](process/tasks/foo.md) t".data :=
  missing_task_number_line_unchanged ["007-bar.md".data]
    "- [#042](process/tasks/foo.md) t".data "042".data (by decide) (by decide)

/-- C8: a line in which the reference pattern matches nowhere (for any task
number) is never modified, whatever the dictionary contains. -/
theorem no_reference_line_unchanged (tf : List (List Char × List Char))
    (line : List Char) (h : searchTaskRef line = none) :
    fixLineCore tf line = line := by
  simp only [fixLineCore, h]

/-- Witness for C8 on a plain text line. -/
theorem no_reference_line_unchanged_witness :
    fixLineCore (task_files ["007-bar.md".data]) "Some plain text".data
      = "Some plain text".data :=
  no_reference_line_unchanged (task_files ["007-bar.md".data])
    "Some plain text".data (by decide)

/-- C10: when no line of the content is rewritten (each line either has no
reference or references a number that is not a key of the mapping), the
repairer writes back content byte-for-byte equal to the original: splitting on
newlines and rejoining the unmodified lines is the identity. -/
theorem no_rewrite_content_roundtrip (listing : List (List Char))
    (content : List Char)
    (h : ∀ l ∈ splitNl content, lineUnmapped (task_files listing) l = true) :
    fix_tasks_md listing content = content := by
  unfold fix_tasks_md
  rw [map_id_of_mem (splitNl content) _
      (fun l hl => fixLineCore_of_unmapped _ l (h l hl))]
  exact joinNl_splitNl content

/-- Witness for C10: two lines, one unmapped reference and one plain line. -/
theorem no_rewrite_content_roundtrip_witness :
    fix_tasks_md ["007-bar.md".data]
        "- [#042](process/tasks/foo.md) x\nno ref".data
      = "- [#042](process/tasks/foo.md) x\nno ref".data :=
  no_rewrite_content_roundtrip ["007-bar.md".data]
    "- [#042](process/tasks/foo.md) x\nno ref".data (by decide)

/-- C9: the fixture Calculator's `add` returns the arithmetic sum and
`subtract` the arithmetic difference for all integer pairs (Python integers
are unbounded), including the spec's examples. -/
theorem calculator_add_subtract :
    (∀ a b : Int, Calculator.add a b = a + b ∧ Calculator.subtract a b = a - b) ∧
    Calculator.add 2 3 = 5 ∧ Calculator.subtract 2 3 = -1 ∧
    Calculator.add 0 0 = 0 :=
  ⟨fun _ _ => ⟨rfl, rfl⟩, rfl, rfl, rfl⟩

/-- C4: one run of the rule-file generator produces exactly six files, under
`.cursor/rules/` with the six fixed `.mdc` names; each written text begins with
a header block delimited by `---` lines holding the `name:`, `description:`,
`globs:` (the one-element list rendered `- "**/*"`) and `alwaysApply: false`
fields, followed immediately by a non-empty markdown body that does not start
with an extra blank line. -/
theorem rule_files_structure :
    rule_writes.length = 6 ∧
    rule_writes.map Prod.fst =
      [".cursor/rules/minsky-workflow-orchestrator.mdc",
       ".cursor/rules/minsky-cli-usage.mdc",
       ".cursor/rules/minsky-session-management.mdc",
       ".cursor/rules/task-implementation-workflow.mdc",
       ".cursor/rules/task-status-protocol.mdc",
       ".cursor/rules/pr-preparation-workflow.mdc"] ∧
    rule_writes.map Prod.snd =
      ["---\nname: " ++ name1 ++ "\ndescription: " ++ desc1
          ++ "\nglobs:\n  - \"**/*\"\nalwaysApply: false\n---\n" ++ body1,
      "---\nname: " ++ name2 ++ "\ndescription: " ++ desc2
          ++ "\nglobs:\n  - \"**/*\"\nalwaysApply: false\n---\n" ++ body2,
      "---\nname: " ++ name3 ++ "\ndescription: " ++ desc3
          ++ "\nglobs:\n  - \"**/*\"\nalwaysApply: false\n---\n" ++ body3,
      "---\nname: " ++ name4 ++ "\ndescription: " ++ desc4
          ++ "\nglobs:\n  - \"**/*\"\nalwaysApply: false\n---\n" ++ body4,
      "---\nname: " ++ name5 ++ "\ndescription: " ++ desc5
          ++ "\nglobs:\n  - \"**/*\"\nalwaysApply: false\n---\n" ++ body5,
      "---\nname: " ++ name6 ++ "\ndescription: " ++ desc6
          ++ "\nglobs:\n  - \"**/*\"\nalwaysApply: false\n---\n" ++ body6] ∧
    (body1 ≠ "" ∧ body1.data.head? ≠ some '\n') ∧
    (body2 ≠ "" ∧ body2.data.head? ≠ some '\n') ∧
    (body3 ≠ "" ∧ body3.data.head? ≠ some '\n') ∧
    (body4 ≠ "" ∧ body4.data.head? ≠ some '\n') ∧
    (body5 ≠ "" ∧ body5.data.head? ≠ some '\n') ∧
    (body6 ≠ "" ∧ body6.data.head? ≠ some '\n') :=
  ⟨rfl, rfl, rfl, body_head_ok body1 '#' rfl (by decide), body_head_ok body2 '#' rfl (by decide), body_head_ok body3 '#' rfl (by decide), body_head_ok body4 '#' rfl (by decide), body_head_ok body5 '#' rfl (by decide), body_head_ok body6 '#' rfl (by decide)⟩

/-- C5: re-running the generator is idempotent — a second run applied to the
state left by the first changes nothing — and after any run each of the six
rule files holds exactly the header-plus-body text, so consecutive runs write
byte-for-byte identical content. -/
theorem rule_generator_idempotent :
    (∀ fs : String → Option String,
      runGenerator (runGenerator fs) = runGenerator fs) ∧
    (∀ fs : String → Option String,
      runGenerator fs ".cursor/rules/minsky-workflow-orchestrator.mdc" = some (frontmatter name1 desc1 ++ body1) ∧
      runGenerator fs ".cursor/rules/minsky-cli-usage.mdc" = some (frontmatter name2 desc2 ++ body2) ∧
      runGenerator fs ".cursor/rules/minsky-session-management.mdc" = some (frontmatter name3 desc3 ++ body3) ∧
      runGenerator fs ".cursor/rules/task-implementation-workflow.mdc" = some (frontmatter name4 desc4 ++ body4) ∧
      runGenerator fs ".cursor/rules/task-status-protocol.mdc" = some (frontmatter name5 desc5 ++ body5) ∧
      runGenerator fs ".cursor/rules/pr-preparation-workflow.mdc" = some (frontmatter name6 desc6 ++ body6)) :=
  ⟨fun fs =>
    foldl_applyWrite_congr rule_writes (runGenerator fs) fs
      (fun q hq => foldl_applyWrite_not_mem rule_writes fs q hq),
   fun _ => ⟨rfl, rfl, rfl, rfl, rfl, rfl⟩⟩

/-- C3 (counterexample): with the second source present and well formed but
the first source file unreadable, the run terminates with an uncaught
exception before anything is reported, so the failure of one source does
prevent the processing and reporting of the other (the first `open` stands
outside every `try` block). -/
theorem comparator_crash_counterexample :
    (count_real_tools none (some "\x7b\n  \"t1\": 1\n\x7d".data)).crashed = true ∧
    (count_real_tools none (some "\x7b\n  \"t1\": 1\n\x7d".data)).output = [] :=
  ⟨rfl, rfl⟩

/-- C3 (amended): provided the first source file is readable, the two
extraction-and-parse attempts are independent and individually fault-tolerant:
the process never terminates abnormally, the output is the concatenation of
one report per source, and each source always yields at least one report line
— missing markers, malformed JSON and an unreadable second file are caught and
reported on standard output.  An unreadable first source file, however, raises
an uncaught exception that terminates the process before the second source is
processed (see the counterexample). -/
theorem comparator_fault_tolerance (c : List Char) (a : Option (List Char)) :
    (count_real_tools (some c) a).crashed = false ∧
    (count_real_tools (some c) a).output
      = processCursor c ++
          (match a with
           | none => [OutEvent.parseFail Source.ours]
           | some o => processOur o) ∧
    processCursor c ≠ [] ∧
    (match a with
     | none => [OutEvent.parseFail Source.ours]
     | some o => processOur o) ≠ [] := by
  refine ⟨rfl, rfl, ?_, ?_⟩
  · show reportTools Source.cursor (json_loads (extractCursorJson c)) ≠ []
    exact reportTools_ne_nil _ _
  · cases a with
    | none => simp
    | some o => exact processOur_ne_nil o

/-- C6: for every first-source document whose extracted fenced block parses as
a JSON object with entries `kvs` (the embedding of "contains a well-formed
fenced JSON object with key set K"), the run reports the number of top-level
keys, `kvs.length`, and then the prefix of the key list of size
`min 10 kvs.length`, regardless of the second source. -/
theorem comparator_reports_count_and_keys (content : List Char)
    (kvs : List (List Char × Json)) (a : Option (List Char))
    (h : json_loads (extractCursorJson content) = some (Json.obj kvs)) :
    (count_real_tools (some content) a).crashed = false ∧
    (∃ rest, (count_real_tools (some content) a).output
        = OutEvent.toolCount Source.cursor kvs.length
          :: OutEvent.firstTen Source.cursor ((kvs.map Prod.fst).take 10)
          :: rest) ∧
    ((kvs.map Prod.fst).take 10).length = min 10 kvs.length ∧
    (kvs.map Prod.fst).take 10 ++ (kvs.map Prod.fst).drop 10
      = kvs.map Prod.fst := by
  refine ⟨rfl, ?_, ?_, List.take_append_drop 10 (kvs.map Prod.fst)⟩
  · refine ⟨(match a with
      | none => [OutEvent.parseFail Source.ours]
      | some o => processOur o), ?_⟩
    have hout : (count_real_tools (some content) a).output
        = reportTools Source.cursor (json_loads (extractCursorJson content)) ++
            (match a with
             | none => [OutEvent.parseFail Source.ours]
             | some o => processOur o) := rfl
    rw [hout, h]
    rfl
  · rw [List.length_take, List.length_map]

/-- Witness for C6 on a two-key fenced document, second source absent. -/
theorem comparator_reports_count_and_keys_witness :
    (count_real_tools
        (some "x\n```json\n\x7b\"a\": 1, \"b\": 2\x7d\n```\n".data) none).crashed
      = false ∧
    (∃ rest, (count_real_tools
          (some "x\n```json\n\x7b\"a\": 1, \"b\": 2\x7d\n```\n".data) none).output
        = OutEvent.toolCount Source.cursor
            ([("a".data, Json.num "1".data), ("b".data, Json.num "2".data)]).length
          :: OutEvent.firstTen Source.cursor
            ((([("a".data, Json.num "1".data),
                ("b".data, Json.num "2".data)]).map Prod.fst).take 10)
          :: rest) ∧
    ((([("a".data, Json.num "1".data),
        ("b".data, Json.num "2".data)]).map Prod.fst).take 10).length
      = min 10 ([("a".data, Json.num "1".data),
          ("b".data, Json.num "2".data)]).length ∧
    (([("a".data, Json.num "1".data),
       ("b".data, Json.num "2".data)]).map Prod.fst).take 10
      ++ (([("a".data, Json.num "1".data),
           ("b".data, Json.num "2".data)]).map Prod.fst).drop 10
      = ([("a".data, Json.num "1".data),
          ("b".data, Json.num "2".data)]).map Prod.fst :=
  comparator_reports_count_and_keys
    "x\n```json\n\x7b\"a\": 1, \"b\": 2\x7d\n```\n".data
    [("a".data, Json.num "1".data), ("b".data, Json.num "2".data)] none rfl

end Minsky
